import Mathlib

/-!
Verification of the board mutation service of the project-management tool
(backend/src/controllers/taskController.ts, projectController.ts, and the
socket handler setupSocketHandlers), as a shallow embedding.

Record identifiers (cuid strings in the source) are modelled as `Nat`;
column identifiers stay `String` (they live inside the board's `columns`
JSON). The prisma store is the `DB` record; every controller returns its
HTTP outcome (`Except ApiError _`), the post-state, and the list of
socket.io events it emitted.
-/

namespace PMT

inductive Role where
  | ADMIN
  | MEMBER
  | VIEWER
deriving DecidableEq, Repr

inductive Priority where
  | LOW
  | MEDIUM
  | HIGH
  | URGENT
deriving DecidableEq, Repr

/-- An entry of a board's `columns` JSON array (prisma `Board.columns`). -/
structure Column where
  id : String
  title : String
deriving DecidableEq, Repr

/-- Row of `workspace_members` (composite unique key (workspaceId, userId)). -/
structure WorkspaceMember where
  workspaceId : Nat
  userId : Nat
  role : Role
deriving DecidableEq, Repr

/-- Row of `projects` (fields unused by the verified controllers omitted). -/
structure Project where
  id : Nat
  workspaceId : Nat
deriving DecidableEq, Repr

/-- Row of `boards`. -/
structure Board where
  id : Nat
  name : String
  projectId : Nat
  columns : List Column
deriving DecidableEq, Repr

/-- Row of `tasks`. `position` is `Int @default(0)` in the schema; every
value written by the controllers comes from zod `int().min(0)` input or a
`+ 1` on an existing value, so it is modelled as `Nat`. -/
structure Task where
  id : Nat
  title : String
  description : Option String
  boardId : Nat
  columnId : String
  assignedTo : Option Nat
  priority : Priority
  dueDate : Option String
  position : Nat
deriving DecidableEq, Repr

/-- The relational store as seen by the verified controllers. -/
structure DB where
  projects : List Project
  boards : List Board
  members : List WorkspaceMember
  tasks : List Task
deriving DecidableEq, Repr

/-- A `createError(message, status)` value. -/
structure ApiError where
  message : String
  status : Nat
deriving DecidableEq, Repr

/-- A socket.io emit: the room it targets and the event name. -/
structure Evt where
  room : String
  name : String
deriving DecidableEq, Repr

def boardRoom (boardId : Nat) : String :=
  "board-" ++ toString boardId

/-- Emits addressed at the requesting socket itself (`socket.emit`). -/
def socketRoom (socketId : Nat) : String :=
  "socket-" ++ toString socketId

def findBoard (db : DB) (boardId : Nat) : Option Board :=
  db.boards.find? (fun b => b.id == boardId)

def findProject (db : DB) (projectId : Nat) : Option Project :=
  db.projects.find? (fun p => p.id == projectId)

def findTask (db : DB) (taskId : Nat) : Option Task :=
  db.tasks.find? (fun t => t.id == taskId)

/-- The `members: { where: { userId } }` include filter: all membership rows
of this user in this workspace (at most one by the unique constraint). -/
def memberRowsAny (db : DB) (workspaceId userId : Nat) : List WorkspaceMember :=
  db.members.filter (fun m => m.workspaceId == workspaceId && m.userId == userId)

/-- The `members: { where: { userId, role: { in: [ADMIN, MEMBER] } } }`
include filter used by every mutating controller. -/
def memberRowsEditor (db : DB) (workspaceId userId : Nat) : List WorkspaceMember :=
  db.members.filter (fun m => m.workspaceId == workspaceId && m.userId == userId &&
    (m.role == Role.ADMIN || m.role == Role.MEMBER))

/-- The `board.findUnique(include: project.workspace)` join: the board row
together with its workspace id. Foreign keys guarantee the project row of an
existing board exists; the (unreachable) broken-chain case is folded into
`none`. -/
def boardWorkspace (db : DB) (boardId : Nat) : Option (Board × Nat) :=
  match findBoard db boardId with
  | none => none
  | some b =>
    match findProject db b.projectId with
    | none => none
    | some p => some (b, p.workspaceId)

/-- The `task.findUnique(include: board.project.workspace)` join. -/
def taskWorkspace (db : DB) (taskId : Nat) : Option (Task × Nat) :=
  match findTask db taskId with
  | none => none
  | some t =>
    match boardWorkspace db t.boardId with
    | none => none
    | some (_, wsId) => some (t, wsId)

/-- Tasks of one column of one board (the `where: { boardId, columnId }`
filter). -/
def colTasks (db : DB) (boardId : Nat) (columnId : String) : List Task :=
  db.tasks.filter (fun t => t.boardId == boardId && t.columnId == columnId)

def colPositions (db : DB) (boardId : Nat) (columnId : String) : List Nat :=
  (colTasks db boardId columnId).map Task.position

/-- Fold step realising `findFirst(orderBy: { position: desc })`: keeps a
task of maximal position. -/
def maxStep (acc : Option Task) (t : Task) : Option Task :=
  match acc with
  | none => some t
  | some m => if m.position < t.position then some t else some m

/-- The `maxPosition` query of createTask. -/
def maxPositionTask (db : DB) (boardId : Nat) (columnId : String) : Option Task :=
  (colTasks db boardId columnId).foldl maxStep none

/-- Stable insertion realising prisma's `orderBy: { position: asc }`. -/
def insertByPos (t : Task) : List Task → List Task
  | [] => [t]
  | u :: us => if t.position ≤ u.position then t :: u :: us else u :: insertByPos t us

def sortByPos (ts : List Task) : List Task :=
  ts.foldr insertByPos []

/-- The zod-parsed body of `POST /tasks` (`taskSchema`). `position` has
`default(0)`, so after parsing it is always present; an omitted position
arrives here as `0`. -/
structure TaskInput where
  title : String
  description : Option String
  boardId : Nat
  columnId : String
  assignedTo : Option Nat
  priority : Priority
  dueDate : Option String
  position : Nat
deriving DecidableEq, Repr

/-- The position written by createTask:
`position || (maxPosition ? maxPosition.position + 1 : 0)`.
A requested position of `0` is falsy in JavaScript, so it falls through to
the max-plus-one branch. -/
def allocPosition (db : DB) (boardId : Nat) (columnId : String) (reqPosition : Nat) : Nat :=
  if reqPosition ≠ 0 then reqPosition
  else
    match maxPositionTask db boardId columnId with
    | some m => m.position + 1
    | none => 0

/-- The row handed to `prisma.task.create` by createTask; `newId` stands
for the generated cuid. -/
def mkNewTask (db : DB) (input : TaskInput) (newId : Nat) : Task :=
  { id := newId
    title := input.title
    description := input.description
    boardId := input.boardId
    columnId := input.columnId
    assignedTo := input.assignedTo
    priority := input.priority
    dueDate := input.dueDate
    position := allocPosition db input.boardId input.columnId input.position }

/-- The `prisma.task.create` step of createTask, plus the `taskCreated`
emit. -/
def createTaskPersist (db : DB) (input : TaskInput) (newId : Nat) :
    Except ApiError Task × DB × List Evt :=
  (Except.ok (mkNewTask db input newId),
    { db with tasks := db.tasks ++ [mkNewTask db input newId] },
    [⟨boardRoom input.boardId, "taskCreated"⟩])

/-- `createTask` (taskController.ts lines 8-119). Note there is no check
that `input.columnId` belongs to the board's column set. -/
def createTask (db : DB) (userId : Nat) (input : TaskInput) (newId : Nat) :
    Except ApiError Task × DB × List Evt :=
  match boardWorkspace db input.boardId with
  | none => (Except.error ⟨"Board not found", 404⟩, db, [])
  | some (_, wsId) =>
    if (memberRowsEditor db wsId userId).length == 0 then
      (Except.error ⟨"Access denied - insufficient permissions", 403⟩, db, [])
    else
      match input.assignedTo with
      | some a =>
        if (memberRowsAny db wsId a).length == 0 then
          (Except.error ⟨"Assigned user is not a member of this workspace", 400⟩, db, [])
        else createTaskPersist db input newId
      | none => createTaskPersist db input newId

/-- `getTasks` (taskController.ts lines 121-176): membership of any role
suffices; returns the board's tasks ordered by position. -/
def getTasks (db : DB) (userId : Nat) (boardId : Nat) :
    Except ApiError (List Task) × DB :=
  match boardWorkspace db boardId with
  | none => (Except.error ⟨"Board not found", 404⟩, db)
  | some (_, wsId) =>
    if (memberRowsAny db wsId userId).length == 0 then
      (Except.error ⟨"Access denied", 403⟩, db)
    else
      (Except.ok (sortByPos (db.tasks.filter (fun t => t.boardId == boardId))), db)

/-- The zod-parsed body of `PUT /tasks/:id` (`updateTaskSchema`): every
field optional. It DOES carry `columnId` and `position`. -/
structure UpdatePatch where
  title : Option String
  description : Option String
  columnId : Option String
  assignedTo : Option Nat
  priority : Option Priority
  dueDate : Option String
  position : Option Nat
deriving DecidableEq, Repr

/-- The `updateData` object of updateTask: each field present in the patch
overwrites the stored value (taskController.ts lines 308-315). -/
def applyPatch (t : Task) (p : UpdatePatch) : Task :=
  { t with
    title := p.title.getD t.title
    description := match p.description with | some d => some d | none => t.description
    columnId := p.columnId.getD t.columnId
    assignedTo := match p.assignedTo with | some a => some a | none => t.assignedTo
    priority := p.priority.getD t.priority
    dueDate := match p.dueDate with | some d => some d | none => t.dueDate
    position := p.position.getD t.position }

/-- The `prisma.task.update` of updateTask plus the `taskUpdated` emit. -/
def updateTaskPersist (db : DB) (task : Task) (patch : UpdatePatch) :
    Except ApiError Task × DB × List Evt :=
  (Except.ok (applyPatch task patch),
    { db with tasks := db.tasks.map (fun t => if t.id == task.id then applyPatch t patch else t) },
    [⟨boardRoom task.boardId, "taskUpdated"⟩])

/-- `updateTask` (taskController.ts lines 254-344). -/
def updateTask (db : DB) (userId taskId : Nat) (patch : UpdatePatch) :
    Except ApiError Task × DB × List Evt :=
  match taskWorkspace db taskId with
  | none => (Except.error ⟨"Task not found", 404⟩, db, [])
  | some (task, wsId) =>
    if (memberRowsEditor db wsId userId).length == 0 then
      (Except.error ⟨"Access denied - insufficient permissions", 403⟩, db, [])
    else
      match patch.assignedTo with
      | some a =>
        if (memberRowsAny db wsId a).length == 0 then
          (Except.error ⟨"Assigned user is not a member of this workspace", 400⟩, db, [])
        else updateTaskPersist db task patch
      | none => updateTaskPersist db task patch

/-- `deleteTask` (taskController.ts lines 346-393); comments and
attachments cascade with the row and are not modelled. -/
def deleteTask (db : DB) (userId taskId : Nat) :
    Except ApiError Unit × DB × List Evt :=
  match taskWorkspace db taskId with
  | none => (Except.error ⟨"Task not found", 404⟩, db, [])
  | some (task, wsId) =>
    if (memberRowsEditor db wsId userId).length == 0 then
      (Except.error ⟨"Access denied - insufficient permissions", 403⟩, db, [])
    else
      (Except.ok (),
        { db with tasks := db.tasks.filter (fun t => !(t.id == taskId)) },
        [⟨boardRoom task.boardId, "taskDeleted"⟩])

/-- One `tx.task.update` inside the moveTask transaction: sets the
position (and, for the final write, the column) of the row with this id. -/
structure PosWrite where
  taskId : Nat
  columnId : Option String
  position : Nat
deriving DecidableEq, Repr

def updTask (w : PosWrite) (t : Task) : Task :=
  if t.id == w.taskId then
    { t with
      position := w.position
      columnId := match w.columnId with | some c => c | none => t.columnId }
  else t

def applyWrite (db : DB) (w : PosWrite) : DB :=
  { db with tasks := db.tasks.map (updTask w) }

/-- The `tasksToUpdate` query of moveTask: destination-column tasks at or
after the requested position, ordered by position ascending. It can
include the moved task itself. -/
def tasksToUpdate (db : DB) (boardId : Nat) (columnId : String) (position : Nat) : List Task :=
  sortByPos (db.tasks.filter
    (fun t => t.boardId == boardId && t.columnId == columnId && position ≤ t.position))

/-- A single shift write of the moveTask loop:
`data: { position: taskToUpdate.position + 1 }`. -/
def mkShift (t : Task) : PosWrite :=
  ⟨t.id, none, t.position + 1⟩

/-- The writes issued inside `prisma.$transaction`: one `+ 1` shift per
task of `tasksToUpdate`, then the moved task's column/position write. -/
def moveWrites (db : DB) (task : Task) (columnId : String) (position : Nat) : List PosWrite :=
  (tasksToUpdate db task.boardId columnId position).map mkShift
    ++ [⟨task.id, some columnId, position⟩]

/-- A committed transaction: all writes applied in order. -/
def runTx (db : DB) (ws : List PosWrite) : DB :=
  ws.foldl applyWrite db

/-- The same write sequence when individual writes may fail: `ok i` says
whether the i-th write succeeds. `none` means the transaction threw. -/
def runTxFrom (db : DB) (ws : List PosWrite) (ok : Nat → Bool) (i : Nat) : Option DB :=
  match ws with
  | [] => some db
  | w :: rest => if ok i then runTxFrom (applyWrite db w) rest ok (i + 1) else none

/-- `moveTask` (taskController.ts lines 395-490). There is no no-op check:
the shift-and-write transaction runs unconditionally, and `taskMoved` is
always emitted. The refetched task is returned (`none` cannot occur for an
existing task). -/
def moveTask (db : DB) (userId taskId : Nat) (columnId : String) (position : Nat) :
    Except ApiError (Option Task) × DB × List Evt :=
  match taskWorkspace db taskId with
  | none => (Except.error ⟨"Task not found", 404⟩, db, [])
  | some (task, wsId) =>
    if (memberRowsEditor db wsId userId).length == 0 then
      (Except.error ⟨"Access denied - insufficient permissions", 403⟩, db, [])
    else
      let db2 := runTx db (moveWrites db task columnId position)
      (Except.ok (findTask db2 taskId), db2, [⟨boardRoom task.boardId, "taskMoved"⟩])

/-- `moveTask` with a fallible transaction: on any write failure prisma
rolls the whole transaction back and the store is the pre-state. -/
def moveTaskFallible (db : DB) (userId taskId : Nat) (columnId : String) (position : Nat)
    (ok : Nat → Bool) : Except ApiError (Option Task) × DB × List Evt :=
  match taskWorkspace db taskId with
  | none => (Except.error ⟨"Task not found", 404⟩, db, [])
  | some (task, wsId) =>
    if (memberRowsEditor db wsId userId).length == 0 then
      (Except.error ⟨"Access denied - insufficient permissions", 403⟩, db, [])
    else
      match runTxFrom db (moveWrites db task columnId position) ok 0 with
      | none => (Except.error ⟨"Transaction failed", 500⟩, db, [])
      | some db2 => (Except.ok (findTask db2 taskId), db2, [⟨boardRoom task.boardId, "taskMoved"⟩])

/-- `updateBoard` (projectController.ts lines 383-431). The role filter is
`in: [ADMIN, MEMBER]`, and a supplied column set is written with no check
against tasks still referencing removed columns. -/
def updateBoard (db : DB) (userId boardId : Nat)
    (name : Option String) (columns : Option (List Column)) :
    Except ApiError Board × DB :=
  match boardWorkspace db boardId with
  | none => (Except.error ⟨"Board not found", 404⟩, db)
  | some (board, wsId) =>
    if (memberRowsEditor db wsId userId).length == 0 then
      (Except.error ⟨"Access denied - insufficient permissions", 403⟩, db)
    else
      let newBoard := { board with name := name.getD board.name, columns := columns.getD board.columns }
      (Except.ok newBoard,
        { db with boards := db.boards.map (fun b =>
            if b.id == boardId then { b with name := name.getD b.name, columns := columns.getD b.columns } else b) })

/-- `deleteBoard` (projectController.ts lines 433-474); tasks cascade. -/
def deleteBoard (db : DB) (userId boardId : Nat) :
    Except ApiError Unit × DB :=
  match boardWorkspace db boardId with
  | none => (Except.error ⟨"Board not found", 404⟩, db)
  | some (_, wsId) =>
    if (memberRowsEditor db wsId userId).length == 0 then
      (Except.error ⟨"Access denied - insufficient permissions", 403⟩, db)
    else
      (Except.ok (),
        { db with
          boards := db.boards.filter (fun b => !(b.id == boardId))
          tasks := db.tasks.filter (fun t => !(t.boardId == boardId)) })

/-- One socket's membership of a board room: who is in `board-<boardId>`. -/
structure RoomEntry where
  boardId : Nat
  socketId : Nat
  userId : Nat
deriving DecidableEq, Repr

/-- The authenticated identity attached to a connected socket. -/
structure SocketCtx where
  socketId : Nat
  userId : Nat
deriving DecidableEq, Repr

/-- The `join-board` handler of setupSocketHandlers: board lookup with the
caller's membership rows; on failure emit `error` to the socket and leave
room membership alone; on success join the room and emit `user-joined` to
the room and `joined-board` to the socket. -/
def handleJoinBoard (db : DB) (rooms : List RoomEntry) (sock : SocketCtx) (boardId : Nat) :
    List RoomEntry × List Evt :=
  match boardWorkspace db boardId with
  | none => (rooms, [⟨socketRoom sock.socketId, "error"⟩])
  | some (_, wsId) =>
    if (memberRowsAny db wsId sock.userId).length == 0 then
      (rooms, [⟨socketRoom sock.socketId, "error"⟩])
    else
      (⟨boardId, sock.socketId, sock.userId⟩ :: rooms,
        [⟨boardRoom boardId, "user-joined"⟩, ⟨socketRoom sock.socketId, "joined-board"⟩])

/-- A room state is authorized when every socket sitting in a board room
belongs to a user with a membership row in that board's workspace. -/
def roomsAuthorized (db : DB) (rooms : List RoomEntry) : Prop :=
  ∀ e ∈ rooms, ∃ b wsId, boardWorkspace db e.boardId = some (b, wsId) ∧
    memberRowsAny db wsId e.userId ≠ []

/-- One createTask request of a request sequence. -/
structure CreateReq where
  userId : Nat
  input : TaskInput
  newId : Nat
deriving DecidableEq, Repr

/-- Runs a sequence of createTask requests, keeping the store of each step
(a failed request leaves the store unchanged). -/
def runCreates (db : DB) (reqs : List CreateReq) : DB :=
  reqs.foldl (fun d r => (createTask d r.userId r.input r.newId).2.1) db

/-- The ordering invariant of spec section 3 for one column: the positions
are exactly 0, 1, ..., n-1 up to order. -/
def denseColumn (db : DB) (boardId : Nat) (columnId : String) : Prop :=
  (colPositions db boardId columnId).Perm (List.range (colPositions db boardId columnId).length)

/-- The ordering invariant over all columns. -/
def dense (db : DB) : Prop :=
  ∀ boardId columnId, denseColumn db boardId columnId

/-- Bool view of an Except outcome (HTTP 2xx vs thrown error). -/
def exceptOk {α : Type} : Except ApiError α → Bool
  | Except.ok _ => true
  | Except.error _ => false

/-- Position of a successfully created task, if creation succeeded. -/
def createdPosition : Except ApiError Task → Option Nat
  | Except.ok t => some t.position
  | Except.error _ => none

/-! Concrete store used by the witnesses and counterexamples: one
workspace (id 1) with an ADMIN (user 1), a MEMBER (user 2) and a VIEWER
(user 3), one project and one board with columns todo and doing. -/

def proj1 : Project := ⟨1, 1⟩

def board1 : Board := ⟨1, "Main Board", 1, [⟨"todo", "To Do"⟩, ⟨"doing", "In Progress"⟩]⟩

def db0 : DB :=
  ⟨[proj1], [board1], [⟨1, 1, Role.ADMIN⟩, ⟨1, 2, Role.MEMBER⟩, ⟨1, 3, Role.VIEWER⟩], []⟩

def inA : TaskInput := ⟨"A", none, 1, "todo", none, Priority.MEDIUM, none, 0⟩

def inB : TaskInput := ⟨"B", none, 1, "todo", none, Priority.MEDIUM, none, 0⟩

/-- db0 after user 1 creates tasks 101 and 102 in column todo: task 101
sits at position 0 and task 102 at position 1. -/
def db2 : DB := runCreates db0 [⟨1, inA, 101⟩, ⟨1, inB, 102⟩]

/-- The stored row of task 101 in db2. -/
def task101 : Task := ⟨101, "A", none, 1, "todo", none, Priority.MEDIUM, none, 0⟩

/-- db2 after user 1 moves task 101 to column doing at position 0: column
todo retains only task 102, still at position 1 — a gap. -/
def db3 : DB := (moveTask db2 1 101 "doing" 0).2.1

/-- db2 after user 1 "moves" task 101 to its current column and position:
task 102 is shifted from position 1 to position 2. -/
def db4 : DB := (moveTask db2 1 101 "todo" 0).2.1

/-- A patch that only sets position, as `PUT /tasks/:id` accepts. -/
def patchPos5 : UpdatePatch := ⟨none, none, none, none, none, none, some 5⟩

/-- A createTask body naming a column that is not in board 1's column
set. -/
def inGhost : TaskInput := ⟨"G", none, 1, "ghost", none, Priority.LOW, none, 0⟩

/-- A createTask body with an explicit position 0. -/
def inExplicitZero : TaskInput := ⟨"C", none, 1, "todo", none, Priority.LOW, none, 0⟩

/-- A createTask body with an explicit nonzero position. -/
def inPos7 : TaskInput := ⟨"D", none, 1, "todo", none, Priority.LOW, none, 7⟩

/-- A patch that only renames the task. -/
def patchTitle : UpdatePatch := ⟨some "Renamed", none, none, none, none, none, none⟩

/-- ColumnId of a successfully created task, if creation succeeded. -/
def createdColumnId : Except ApiError Task → Option String
  | Except.ok t => some t.columnId
  | Except.error _ => none

/-! Helper lemmas. -/

theorem length_beq_zero_not_true {α : Type} (l : List α) (h : l ≠ []) :
    ¬ ((l.length == 0) = true) := by
  simp [List.length_eq_zero, h]

theorem taskWorkspace_inv (db : DB) (taskId : Nat) (task : Task) (wsId : Nat)
    (h : taskWorkspace db taskId = some (task, wsId)) :
    findTask db taskId = some task := by
  unfold taskWorkspace at h
  split at h
  · exact absurd h (by simp)
  next t hf =>
    split at h
    · exact absurd h (by simp)
    next bb bws hbw =>
      simp only [Option.some.injEq, Prod.mk.injEq] at h
      rw [hf, h.1]

theorem length_beq_zero_eq_false {α : Type} (l : List α) (h : l ≠ []) :
    (l.length == 0) = false := by
  simp [List.length_eq_zero, h]

theorem memberRowsEditor_nil_of_viewer (db : DB) (wsId userId : Nat)
    (hv : ∀ m ∈ memberRowsAny db wsId userId, m.role = Role.VIEWER) :
    memberRowsEditor db wsId userId = [] := by
  unfold memberRowsEditor
  rw [List.filter_eq_nil_iff]
  intro m hm hcontra
  simp only [Bool.and_eq_true, Bool.or_eq_true, beq_iff_eq] at hcontra
  obtain ⟨⟨hw, hu⟩, hrole⟩ := hcontra
  have hmem : m ∈ memberRowsAny db wsId userId := by
    unfold memberRowsAny
    rw [List.mem_filter]
    exact ⟨hm, by simp [hw, hu]⟩
  have := hv m hmem
  rw [this] at hrole
  rcases hrole with h | h <;> exact absurd h (by decide)

theorem insertByPos_perm (t : Task) (l : List Task) :
    (insertByPos t l).Perm (t :: l) := by
  induction l with
  | nil => exact List.Perm.refl _
  | cons u us ih =>
    unfold insertByPos
    by_cases h : t.position ≤ u.position
    · simp [h]
    · simp only [h, if_false]
      exact (ih.cons u).trans (List.Perm.swap t u us)

theorem sortByPos_perm (ts : List Task) : (sortByPos ts).Perm ts := by
  induction ts with
  | nil => exact List.Perm.refl _
  | cons t us ih =>
    unfold sortByPos
    exact (insertByPos_perm t (us.foldr insertByPos [])).trans (ih.cons t)

theorem foldl_maxStep_some (ts : List Task) (m : Task) :
    ∃ t, ts.foldl maxStep (some m) = some t ∧ (t = m ∨ t ∈ ts) ∧
      m.position ≤ t.position ∧ ∀ u ∈ ts, u.position ≤ t.position := by
  induction ts generalizing m with
  | nil => exact ⟨m, rfl, Or.inl rfl, le_refl _, by simp⟩
  | cons u us ih =>
    by_cases h : m.position < u.position
    · obtain ⟨t, h1, h2, h3, h4⟩ := ih u
      refine ⟨t, ?_, ?_, ?_, ?_⟩
      · simpa [maxStep, h] using h1
      · right
        rcases h2 with h2 | h2
        · exact h2 ▸ List.mem_cons_self u us
        · exact List.mem_cons_of_mem u h2
      · exact le_of_lt (lt_of_lt_of_le h h3)
      · intro v hv
        rcases List.mem_cons.mp hv with h5 | h5
        · exact h5 ▸ h3
        · exact h4 v h5
    · obtain ⟨t, h1, h2, h3, h4⟩ := ih m
      refine ⟨t, ?_, ?_, h3, ?_⟩
      · simpa [maxStep, h] using h1
      · rcases h2 with h2 | h2
        · exact Or.inl h2
        · exact Or.inr (List.mem_cons_of_mem u h2)
      · intro v hv
        rcases List.mem_cons.mp hv with h5 | h5
        · exact h5 ▸ le_trans (Nat.le_of_not_lt h) h3
        · exact h4 v h5

theorem maxPositionTask_spec (db : DB) (b : Nat) (c : String) :
    (colTasks db b c = [] ∧ maxPositionTask db b c = none) ∨
    (∃ t, maxPositionTask db b c = some t ∧ t ∈ colTasks db b c ∧
      ∀ u ∈ colTasks db b c, u.position ≤ t.position) := by
  unfold maxPositionTask
  cases hts : colTasks db b c with
  | nil => exact Or.inl ⟨rfl, rfl⟩
  | cons x xs =>
    right
    obtain ⟨t, h1, h2, h3, h4⟩ := foldl_maxStep_some xs x
    refine ⟨t, ?_, ?_, ?_⟩
    · simpa [maxStep] using h1
    · rcases h2 with h2 | h2
      · exact h2 ▸ List.mem_cons_self x xs
      · exact List.mem_cons_of_mem x h2
    · intro u hu
      rcases List.mem_cons.mp hu with h5 | h5
      · exact h5 ▸ h3
      · exact h4 u h5

theorem allocPosition_zero_of_dense (db : DB) (b : Nat) (c : String)
    (hd : denseColumn db b c) :
    allocPosition db b c 0 = (colTasks db b c).length := by
  unfold allocPosition
  simp only [ne_eq, not_true_eq_false, if_false]
  rcases maxPositionTask_spec db b c with ⟨hnil, hmax⟩ | ⟨t, hmax, hmem, hbound⟩
  · simp [hmax, hnil]
  · rw [hmax]
    show t.position + 1 = (colTasks db b c).length
    unfold denseColumn colPositions at hd
    set n := (colTasks db b c).length with hn
    have hlen : ((colTasks db b c).map Task.position).length = n := by
      simp [hn]
    rw [hlen] at hd
    have hlt : t.position < n := by
      have h1 : t.position ∈ (colTasks db b c).map Task.position :=
        List.mem_map_of_mem Task.position hmem
      have h2 := hd.mem_iff.mp h1
      exact List.mem_range.mp h2
    have hn1 : 1 ≤ n := by
      have : (colTasks db b c) ≠ [] := List.ne_nil_of_mem hmem
      have : 0 < (colTasks db b c).length := List.length_pos.mpr this
      omega
    have hge : n - 1 ≤ t.position := by
      have h1 : n - 1 ∈ List.range n := List.mem_range.mpr (by omega)
      have h2 := hd.mem_iff.mpr h1
      obtain ⟨u, hu, hup⟩ := List.mem_map.mp h2
      have := hbound u hu
      omega
    omega

/-- createTask either rejects (store untouched) or appends the freshly
built row. -/
theorem createTask_db_cases (db : DB) (u : Nat) (input : TaskInput) (nid : Nat) :
    (createTask db u input nid).2.1 = db ∨
    (createTask db u input nid).2.1 = { db with tasks := db.tasks ++ [mkNewTask db input nid] } := by
  unfold createTask createTaskPersist
  split
  · exact Or.inl rfl
  · split
    · exact Or.inl rfl
    · split
      · split
        · exact Or.inl rfl
        · exact Or.inr rfl
      · exact Or.inr rfl

theorem dense_insert (db : DB) (input : TaskInput) (nid : Nat)
    (hd : dense db) (hp : input.position = 0) :
    dense { db with tasks := db.tasks ++ [mkNewTask db input nid] } := by
  intro b c
  cases hb : (input.boardId == b && input.columnId == c) with
  | true =>
    obtain ⟨hb1, hb2⟩ : input.boardId = b ∧ input.columnId = c := by
      simpa [Bool.and_eq_true, beq_iff_eq] using hb
    subst hb1
    subst hb2
    have hpred : ((fun t => t.boardId == input.boardId && t.columnId == input.columnId)
        (mkNewTask db input nid)) = true := by
      show (input.boardId == input.boardId && input.columnId == input.columnId) = true
      simp
    have hfil : colTasks { db with tasks := db.tasks ++ [mkNewTask db input nid] }
          input.boardId input.columnId
        = colTasks db input.boardId input.columnId ++ [mkNewTask db input nid] := by
      unfold colTasks
      rw [List.filter_append, List.filter_cons, if_pos hpred]
      rfl
    unfold denseColumn colPositions
    rw [hfil, List.map_append]
    have hpos : (mkNewTask db input nid).position
        = (colTasks db input.boardId input.columnId).length := by
      show allocPosition db input.boardId input.columnId input.position = _
      rw [hp]
      exact allocPosition_zero_of_dense db _ _ (hd _ _)
    simp only [List.map_cons, List.map_nil]
    rw [hpos]
    have hperm := hd input.boardId input.columnId
    unfold denseColumn colPositions at hperm
    have hlen : ((colTasks db input.boardId input.columnId).map Task.position).length
        = (colTasks db input.boardId input.columnId).length := by simp
    rw [hlen] at hperm
    have hlen2 : ((colTasks db input.boardId input.columnId).map Task.position
        ++ [(colTasks db input.boardId input.columnId).length]).length
        = (colTasks db input.boardId input.columnId).length + 1 := by simp
    rw [hlen2, List.range_succ]
    exact hperm.append_right _
  | false =>
    have hpred : ((fun t => t.boardId == b && t.columnId == c)
        (mkNewTask db input nid)) = false := by
      show (input.boardId == b && input.columnId == c) = false
      exact hb
    have hfil : colTasks { db with tasks := db.tasks ++ [mkNewTask db input nid] } b c
        = colTasks db b c := by
      unfold colTasks
      rw [List.filter_append, List.filter_cons, if_neg (by simp [hpred])]
      simp
    unfold denseColumn colPositions
    rw [hfil]
    exact hd b c

theorem runTx_tasks (ws : List PosWrite) (db : DB) :
    (runTx db ws).tasks = db.tasks.map (fun t => ws.foldl (fun s w => updTask w s) t) := by
  induction ws generalizing db with
  | nil => simp [runTx]
  | cons w rest ih =>
    show (runTx (applyWrite db w) rest).tasks = _
    rw [ih]
    simp only [applyWrite, List.map_map, List.foldl_cons]
    rfl

theorem foldl_updTask_of_ne (ws : List PosWrite) (t : Task)
    (h : ∀ w ∈ ws, w.taskId ≠ t.id) :
    ws.foldl (fun s w => updTask w s) t = t := by
  induction ws with
  | nil => rfl
  | cons w rest ih =>
    have hne : (t.id == w.taskId) = false := by
      have := h w (List.mem_cons_self w rest)
      simp [Ne.symm this]
    show rest.foldl (fun s w => updTask w s) (updTask w t) = t
    rw [show updTask w t = t from by simp [updTask, hne]]
    exact ih (fun v hv => h v (List.mem_cons_of_mem w hv))

theorem foldl_shifts_not_mem (S : List Task) (t : Task)
    (h : ∀ s ∈ S, s.id ≠ t.id) :
    (S.map mkShift).foldl (fun s w => updTask w s) t = t := by
  apply foldl_updTask_of_ne
  intro w hw
  obtain ⟨s, hs, rfl⟩ := List.mem_map.mp hw
  exact h s hs

theorem foldl_shifts_mem (S : List Task) (t : Task)
    (hN : (S.map Task.id).Nodup) (ht : t ∈ S) :
    (S.map mkShift).foldl (fun s w => updTask w s) t
      = { t with position := t.position + 1 } := by
  induction S with
  | nil => cases ht
  | cons s rest ih =>
    rw [List.map_cons, List.nodup_cons] at hN
    obtain ⟨hsid, hrest⟩ := hN
    rcases List.mem_cons.mp ht with rfl | htr
    · rw [List.map_cons, List.foldl_cons]
      have h1 : updTask (mkShift t) t = { t with position := t.position + 1 } := by
        simp [updTask, mkShift]
      rw [h1]
      apply foldl_shifts_not_mem
      intro u hu
      intro hid
      exact hsid (hid ▸ List.mem_map_of_mem Task.id hu)
    · have hne : t.id ≠ s.id := by
        intro hid
        exact hsid (hid ▸ List.mem_map_of_mem Task.id htr)
      rw [List.map_cons, List.foldl_cons]
      have h1 : updTask (mkShift s) t = t := by
        simp [updTask, mkShift, hne]
      rw [h1]
      exact ih hrest htr

theorem id_inj_of_nodup {ts : List Task} (hN : (ts.map Task.id).Nodup)
    {a b : Task} (ha : a ∈ ts) (hb : b ∈ ts) (h : a.id = b.id) : a = b :=
  List.inj_on_of_nodup_map hN ha hb h

theorem tasksToUpdate_nodup (db : DB) (boardId : Nat) (c : String) (p : Nat)
    (hN : (db.tasks.map Task.id).Nodup) :
    ((tasksToUpdate db boardId c p).map Task.id).Nodup := by
  have hperm := sortByPos_perm (db.tasks.filter
    (fun t => t.boardId == boardId && t.columnId == c && decide (p ≤ t.position)))
  have hsub : (db.tasks.filter
      (fun t => t.boardId == boardId && t.columnId == c && decide (p ≤ t.position))).Sublist db.tasks :=
    List.filter_sublist db.tasks
  have h1 : ((db.tasks.filter
      (fun t => t.boardId == boardId && t.columnId == c && decide (p ≤ t.position))).map Task.id).Nodup :=
    List.Nodup.sublist (hsub.map Task.id) hN
  exact (hperm.map Task.id).symm.nodup h1

theorem mem_tasksToUpdate (db : DB) (boardId : Nat) (c : String) (p : Nat) (t : Task) :
    t ∈ tasksToUpdate db boardId c p ↔
      t ∈ db.tasks ∧ (t.boardId == boardId && t.columnId == c && decide (p ≤ t.position)) = true := by
  unfold tasksToUpdate
  rw [(sortByPos_perm _).mem_iff, List.mem_filter]

/-- Net effect of the moveTask transaction on the task table, assuming
row ids are unique (prisma primary keys): the moved row gets the new
column and position; every other destination-column row at or after the
requested position is shifted up by one. -/
theorem runTx_moveWrites_tasks (db : DB) (task : Task) (c : String) (p : Nat)
    (hN : (db.tasks.map Task.id).Nodup) :
    (runTx db (moveWrites db task c p)).tasks
      = db.tasks.map (fun t =>
          if t.id == task.id then { t with columnId := c, position := p }
          else if t.boardId == task.boardId && t.columnId == c && decide (p ≤ t.position)
            then { t with position := t.position + 1 } else t) := by
  unfold moveWrites runTx
  rw [List.foldl_append]
  show ((runTx db ((tasksToUpdate db task.boardId c p).map mkShift)).tasks.map
      (updTask ⟨task.id, some c, p⟩)) = _
  rw [runTx_tasks, List.map_map]
  apply List.map_congr_left
  intro t htmem
  show updTask ⟨task.id, some c, p⟩
      (((tasksToUpdate db task.boardId c p).map mkShift).foldl (fun s w => updTask w s) t) = _
  have hSN := tasksToUpdate_nodup db task.boardId c p hN
  cases hq : (t.boardId == task.boardId && t.columnId == c && decide (p ≤ t.position)) with
  | true =>
    have htS : t ∈ tasksToUpdate db task.boardId c p :=
      (mem_tasksToUpdate db task.boardId c p t).mpr ⟨htmem, hq⟩
    rw [foldl_shifts_mem _ _ hSN htS]
    cases hid : (t.id == task.id) with
    | true => simp [updTask, hid, hq]
    | false => simp [updTask, hid, hq]
  | false =>
    have htS : ∀ s ∈ tasksToUpdate db task.boardId c p, s.id ≠ t.id := by
      intro s hs hsid
      obtain ⟨hsmem, hsq⟩ := (mem_tasksToUpdate db task.boardId c p s).mp hs
      have : s = t := id_inj_of_nodup hN hsmem htmem hsid
      rw [this] at hsq
      rw [hsq] at hq
      cases hq
    rw [foldl_shifts_not_mem _ _ htS]
    cases hid : (t.id == task.id) with
    | true => simp [updTask, hid, hq]
    | false => simp [updTask, hid, hq]

/-- A fallible transaction either throws (yielding no state) or commits
all of its writes. -/
theorem runTxFrom_all_or_none (ok : Nat → Bool) (ws : List PosWrite) :
    ∀ (db : DB) (i : Nat),
      runTxFrom db ws ok i = none ∨ runTxFrom db ws ok i = some (runTx db ws) := by
  induction ws with
  | nil => intro db i; exact Or.inr rfl
  | cons w rest ih =>
    intro db i
    by_cases h : ok i = true
    · rcases ih (applyWrite db w) (i + 1) with h1 | h1
      · left
        show (if ok i then runTxFrom (applyWrite db w) rest ok (i + 1) else none) = none
        rw [if_pos h, h1]
      · right
        show (if ok i then runTxFrom (applyWrite db w) rest ok (i + 1) else none)
          = some (runTx db (w :: rest))
        rw [if_pos h, h1]
        rfl
    · left
      show (if ok i then runTxFrom (applyWrite db w) rest ok (i + 1) else none) = none
      rw [if_neg h]

/-! Claim theorems. -/

/-- C1 (counterexample): starting from an empty board, two committed
createTask calls put tasks 101 and 102 at positions 0 and 1 of column
todo; a committed moveTask of task 101 to column doing leaves column todo
holding only task 102 at position 1, so its position set is {1}, not
{0} — the claimed dense invariant fails after a create/move sequence. -/
theorem c1_counterexample :
    ¬ (colPositions db3 1 "todo").Perm
      (List.range (colPositions db3 1 "todo").length) := by decide

/-- C1 (amended): for sequences consisting only of committed createTask
operations whose requested position is the zod default 0, every column's
position set stays exactly 0..n-1; moveTask does not preserve this
invariant because it never compacts the source column. -/
theorem c1_dense_for_create_only_sequences (reqs : List CreateReq) (db : DB)
    (hd : dense db) (hp : ∀ r ∈ reqs, r.input.position = 0) :
    dense (runCreates db reqs) := by
  induction reqs generalizing db with
  | nil => exact hd
  | cons r rs ih =>
    have hstep : dense (createTask db r.userId r.input r.newId).2.1 := by
      rcases createTask_db_cases db r.userId r.input r.newId with h | h
      · rw [h]; exact hd
      · rw [h]; exact dense_insert db r.input r.newId hd (hp r (List.mem_cons_self r rs))
    exact ih _ hstep (fun x hx => hp x (List.mem_cons_of_mem r hx))

/-- C1 (witness): the amended theorem applied to the two concrete create
requests that build db2 from the empty store db0. -/
theorem c1_witness : dense (runCreates db0 [⟨1, inA, 101⟩, ⟨1, inB, 102⟩]) :=
  c1_dense_for_create_only_sequences [⟨1, inA, 101⟩, ⟨1, inB, 102⟩] db0
    (by
      intro b c
      unfold denseColumn colPositions colTasks db0
      simp)
    (by decide)

/-- C8 (confirmed): the shift writes and the moved task's column/position
write of moveTask run inside one prisma transaction; whatever subset of
the writes fails, the observable store is either the untouched pre-state
or exactly the store the fully committed moveTask produces — never a
partial update. -/
theorem c8_move_atomic (db : DB) (userId taskId : Nat) (c : String) (p : Nat)
    (ok : Nat → Bool) :
    (moveTaskFallible db userId taskId c p ok).2.1 = db
    ∨ moveTaskFallible db userId taskId c p ok = moveTask db userId taskId c p := by
  unfold moveTaskFallible moveTask
  cases htw : taskWorkspace db taskId with
  | none => exact Or.inl rfl
  | some tw =>
    obtain ⟨task, wsId⟩ := tw
    by_cases h : ((memberRowsEditor db wsId userId).length == 0) = true
    · simp only [if_pos h]
      exact Or.inl trivial
    · simp only [if_neg h]
      rcases runTxFrom_all_or_none ok (moveWrites db task c p) db 0 with h1 | h1
      · rw [h1]
        exact Or.inl rfl
      · rw [h1]
        exact Or.inr rfl

/-- C2 (counterexample): in db2 task 101 sits at column todo position 0;
"moving" it to exactly that column and position still mutates the store
(task 102 is shifted from position 1 to 2) and still emits a taskMoved
broadcast, so moveTask is not a write-free no-op on an identity move. -/
theorem c2_counterexample :
    (moveTask db2 1 101 task101.columnId task101.position).2.1 ≠ db2
    ∧ (moveTask db2 1 101 task101.columnId task101.position).2.2 ≠ [] := by decide

/-- C2 (amended): when destColumnId and destPosition equal the task's
current column and position, moveTask performs no no-op check: it still
runs the shift transaction — leaving the moved task's own row unchanged
but incrementing the position of every other task of that column at or
after destPosition — and it still emits exactly one taskMoved event. -/
theorem c2_move_shifts_even_when_same_dest (db : DB) (userId taskId : Nat)
    (task : Task) (wsId : Nat)
    (h1 : taskWorkspace db taskId = some (task, wsId))
    (h2 : memberRowsEditor db wsId userId ≠ [])
    (hN : (db.tasks.map Task.id).Nodup) :
    (moveTask db userId taskId task.columnId task.position).2.1.tasks
      = db.tasks.map (fun t =>
          if t.id == task.id then t
          else if t.boardId == task.boardId && t.columnId == task.columnId
              && decide (task.position ≤ t.position)
            then { t with position := t.position + 1 } else t)
    ∧ (moveTask db userId taskId task.columnId task.position).2.2
      = [⟨boardRoom task.boardId, "taskMoved"⟩] := by
  have hfind := taskWorkspace_inv db taskId task wsId h1
  have hmem : task ∈ db.tasks := List.mem_of_find?_eq_some hfind
  unfold moveTask
  rw [h1]
  simp only [if_neg (length_beq_zero_not_true _ h2)]
  constructor
  · show (runTx db (moveWrites db task task.columnId task.position)).tasks = _
    rw [runTx_moveWrites_tasks db task task.columnId task.position hN]
    apply List.map_congr_left
    intro t ht
    cases hid : (t.id == task.id) with
    | true =>
      have heq : t = task := id_inj_of_nodup hN ht hmem (by simpa [beq_iff_eq] using hid)
      subst heq
      simp [hid]
    | false => simp [hid]
  · trivial

/-- C2 (witness): the amended theorem applied to task 101 of db2. -/
theorem c2_witness :
    (moveTask db2 1 101 task101.columnId task101.position).2.1.tasks
      = db2.tasks.map (fun t =>
          if t.id == task101.id then t
          else if t.boardId == task101.boardId && t.columnId == task101.columnId
              && decide (task101.position ≤ t.position)
            then { t with position := t.position + 1 } else t)
    ∧ (moveTask db2 1 101 task101.columnId task101.position).2.2
      = [⟨boardRoom task101.boardId, "taskMoved"⟩] :=
  c2_move_shifts_even_when_same_dest db2 1 101 task101 1 (by decide) (by decide) (by decide)

theorem updateTaskPersist_frame (db : DB) (task : Task) (patch : UpdatePatch)
    (hc : patch.columnId = none) (hp : patch.position = none) :
    (updateTaskPersist db task patch).2.1.tasks.map (fun t => (t.id, t.columnId, t.position))
      = db.tasks.map (fun t => (t.id, t.columnId, t.position)) := by
  show (db.tasks.map (fun t => if t.id == task.id then applyPatch t patch else t)).map
      (fun t => (t.id, t.columnId, t.position)) = _
  rw [List.map_map]
  apply List.map_congr_left
  intro t ht
  show (fun t => (t.id, t.columnId, t.position))
      (if t.id == task.id then applyPatch t patch else t) = _
  by_cases hid : (t.id == task.id) = true
  · rw [if_pos hid]
    simp [applyPatch, hc, hp]
  · rw [if_neg hid]

/-- C3 (counterexample): a `PUT /tasks/:id` body may carry `position`
(and `columnId`); sending `{ position: 5 }` for task 101 of db2 changes
its stored position from 0 to 5 through updateTask alone, without any
moveTask — so updateTask is not position/columnId-preserving. -/
theorem c3_counterexample :
    ((updateTask db2 1 101 patchPos5).2.1.tasks.find? (fun t => t.id == 101)).map Task.position
      = some 5
    ∧ (db2.tasks.find? (fun t => t.id == 101)).map Task.position = some 0
    ∧ patchPos5.columnId = none := by decide

/-- C3 (amended): updateTask leaves every task's columnId and position
unchanged exactly when the patch does not carry those fields; when the
patch does carry them, updateTask writes them directly. -/
theorem c3_update_keeps_unpatched_column_and_position (db : DB) (userId taskId : Nat)
    (patch : UpdatePatch) (hc : patch.columnId = none) (hp : patch.position = none) :
    (updateTask db userId taskId patch).2.1.tasks.map (fun t => (t.id, t.columnId, t.position))
      = db.tasks.map (fun t => (t.id, t.columnId, t.position)) := by
  unfold updateTask
  split
  · rfl
  · split
    · rfl
    · split
      · split
        · rfl
        · exact updateTaskPersist_frame db _ patch hc hp
      · exact updateTaskPersist_frame db _ patch hc hp

/-- C3 (witness): a title-only patch on task 101 of db2 keeps every
task's column and position. -/
theorem c3_witness :
    (updateTask db2 1 101 patchTitle).2.1.tasks.map (fun t => (t.id, t.columnId, t.position))
      = db2.tasks.map (fun t => (t.id, t.columnId, t.position)) :=
  c3_update_keeps_unpatched_column_and_position db2 1 101 patchTitle rfl rfl

/-- C4 (confirmed): a user whose only membership rows in the board's
workspace carry role VIEWER is rejected with the 403 Forbidden error by
createTask, moveTask and deleteTask, each leaving the store untouched and
emitting nothing, while getTasks on the same board succeeds for that
user. -/
theorem c4_viewer_forbidden (db : DB) (userId boardId taskId : Nat)
    (board : Board) (task : Task) (wsId : Nat)
    (hb : boardWorkspace db boardId = some (board, wsId))
    (ht : taskWorkspace db taskId = some (task, wsId))
    (hv : ∀ m ∈ memberRowsAny db wsId userId, m.role = Role.VIEWER)
    (hm : memberRowsAny db wsId userId ≠ [])
    (input : TaskInput) (newId : Nat) (hbi : input.boardId = boardId)
    (c : String) (p : Nat) :
    createTask db userId input newId
        = (Except.error ⟨"Access denied - insufficient permissions", 403⟩, db, [])
    ∧ moveTask db userId taskId c p
        = (Except.error ⟨"Access denied - insufficient permissions", 403⟩, db, [])
    ∧ deleteTask db userId taskId
        = (Except.error ⟨"Access denied - insufficient permissions", 403⟩, db, [])
    ∧ exceptOk (getTasks db userId boardId).1 = true
    ∧ (getTasks db userId boardId).2 = db := by
  have hed : memberRowsEditor db wsId userId = [] :=
    memberRowsEditor_nil_of_viewer db wsId userId hv
  refine ⟨?_, ?_, ?_, ?_, ?_⟩
  · unfold createTask
    simp only [hbi, hb, hed]
    rfl
  · unfold moveTask
    simp only [ht, hed]
    rfl
  · unfold deleteTask
    simp only [ht, hed]
    rfl
  · unfold getTasks
    simp only [hb]
    rw [if_neg (length_beq_zero_not_true _ hm)]
    rfl
  · unfold getTasks
    simp only [hb]
    rw [if_neg (length_beq_zero_not_true _ hm)]

/-- C4 (witness): user 3 is the VIEWER of workspace 1 in db2; all three
mutations on board 1 / task 101 fail with 403 and getTasks succeeds. -/
theorem c4_witness :
    createTask db2 3 inA 105
        = (Except.error ⟨"Access denied - insufficient permissions", 403⟩, db2, [])
    ∧ moveTask db2 3 101 "doing" 0
        = (Except.error ⟨"Access denied - insufficient permissions", 403⟩, db2, [])
    ∧ deleteTask db2 3 101
        = (Except.error ⟨"Access denied - insufficient permissions", 403⟩, db2, [])
    ∧ exceptOk (getTasks db2 3 1).1 = true
    ∧ (getTasks db2 3 1).2 = db2 :=
  c4_viewer_forbidden db2 3 1 101 board1 task101 1 (by decide) (by decide)
    (by decide) (by decide) inA 105 rfl "doing" 0

/-- C5 (counterexample): user 2 holds role MEMBER (not ADMIN) in
workspace 1, yet both updateBoard (replacing the column set) and
deleteBoard on board 1 succeed for user 2 — board structural edits are
not restricted to ADMINs. -/
theorem c5_counterexample :
    exceptOk (updateBoard db2 2 1 none (some [⟨"doing", "In Progress"⟩])).1 = true
    ∧ ((updateBoard db2 2 1 none (some [⟨"doing", "In Progress"⟩])).2.boards.map Board.columns)
        = [[⟨"doing", "In Progress"⟩]]
    ∧ exceptOk (deleteBoard db2 2 1).1 = true
    ∧ (∃ m ∈ db2.members, m.userId = 2 ∧ m.role = Role.MEMBER) := by decide

/-- C5 (amended): updateBoard and deleteBoard gate on membership with
role ADMIN or MEMBER: a user with neither (a VIEWER or a non-member) is
rejected with 403 and the store is untouched, while any ADMIN-or-MEMBER
row lets both operations succeed — MEMBER suffices for board structural
edits. -/
theorem c5_board_edits_require_member_not_admin (db : DB) (userId boardId : Nat)
    (board : Board) (wsId : Nat) (name : Option String) (cols : Option (List Column))
    (hb : boardWorkspace db boardId = some (board, wsId)) :
    (memberRowsEditor db wsId userId = [] →
      updateBoard db userId boardId name cols
          = (Except.error ⟨"Access denied - insufficient permissions", 403⟩, db)
      ∧ deleteBoard db userId boardId
          = (Except.error ⟨"Access denied - insufficient permissions", 403⟩, db))
    ∧ (memberRowsEditor db wsId userId ≠ [] →
      exceptOk (updateBoard db userId boardId name cols).1 = true
      ∧ exceptOk (deleteBoard db userId boardId).1 = true) := by
  constructor
  · intro hed
    constructor
    · unfold updateBoard
      simp only [hb, hed]
      rfl
    · unfold deleteBoard
      simp only [hb, hed]
      rfl
  · intro hne
    constructor
    · unfold updateBoard
      simp only [hb]
      rw [if_neg (length_beq_zero_not_true _ hne)]
      rfl
    · unfold deleteBoard
      simp only [hb]
      rw [if_neg (length_beq_zero_not_true _ hne)]
      rfl

/-- C5 (witness): the amended theorem applied to MEMBER user 2 on board
1 of db2. -/
theorem c5_witness :
    exceptOk (updateBoard db2 2 1 none (some [⟨"doing", "In Progress"⟩])).1 = true
    ∧ exceptOk (deleteBoard db2 2 1).1 = true :=
  (c5_board_edits_require_member_not_admin db2 2 1 board1 1 none
    (some [⟨"doing", "In Progress"⟩]) (by decide)).2 (by decide)

/-- C6 (counterexample): board 1 of db2 still has tasks 101 and 102 in
column todo, yet an updateBoard removing todo from the column set
succeeds and the stored column set changes — removal of a non-empty
column is not rejected. -/
theorem c6_counterexample :
    exceptOk (updateBoard db2 1 1 none (some [⟨"doing", "In Progress"⟩])).1 = true
    ∧ ((updateBoard db2 1 1 none (some [⟨"doing", "In Progress"⟩])).2.boards.map Board.columns)
        = [[⟨"doing", "In Progress"⟩]]
    ∧ (∃ t ∈ db2.tasks, t.boardId = 1 ∧ t.columnId = "todo") := by decide

/-- C6 (amended): for any authorized caller, updateBoard installs
whatever column set is supplied, unconditionally: no check is made
against tasks still referencing removed columns, so removing an empty or
a non-empty column succeeds alike. -/
theorem c6_update_board_columns_unchecked (db : DB) (userId boardId : Nat)
    (board : Board) (wsId : Nat) (name : Option String) (cols : List Column)
    (hb : boardWorkspace db boardId = some (board, wsId))
    (he : memberRowsEditor db wsId userId ≠ []) :
    (updateBoard db userId boardId name (some cols)).1
      = Except.ok { board with name := name.getD board.name, columns := cols } := by
  unfold updateBoard
  simp only [hb]
  rw [if_neg (length_beq_zero_not_true _ he)]
  rfl

/-- C6 (witness): the amended theorem applied to ADMIN user 1 removing
column todo of board 1 in db2 while tasks still sit in todo. -/
theorem c6_witness :
    (updateBoard db2 1 1 none (some [⟨"doing", "In Progress"⟩])).1
      = Except.ok { board1 with name := board1.name, columns := [⟨"doing", "In Progress"⟩] } :=
  c6_update_board_columns_unchecked db2 1 1 board1 1 none
    [⟨"doing", "In Progress"⟩] (by decide) (by decide)

/-- C7 (counterexample): "ghost" is not among board 1's column ids, yet
createTask with columnId "ghost" succeeds for user 1 on db2 and stores a
task whose columnId is "ghost" — no ValidationFailed is raised. -/
theorem c7_counterexample :
    createdColumnId (createTask db2 1 inGhost 104).1 = some "ghost"
    ∧ ¬ ("ghost" ∈ board1.columns.map Column.id) := by decide

/-- C7 (amended): createTask performs no validation of columnId against
the board's column set: any authorized request (here with no assignee)
creates and appends a task carrying the supplied columnId verbatim. -/
theorem c7_no_columnid_validation (db : DB) (userId : Nat) (input : TaskInput) (newId : Nat)
    (board : Board) (wsId : Nat)
    (hb : boardWorkspace db input.boardId = some (board, wsId))
    (he : memberRowsEditor db wsId userId ≠ [])
    (ha : input.assignedTo = none) :
    (createTask db userId input newId).1 = Except.ok (mkNewTask db input newId)
    ∧ (createTask db userId input newId).2.1.tasks = db.tasks ++ [mkNewTask db input newId]
    ∧ (mkNewTask db input newId).columnId = input.columnId := by
  unfold createTask
  simp only [hb, ha]
  rw [if_neg (length_beq_zero_not_true _ he)]
  exact ⟨rfl, rfl, rfl⟩

/-- C7 (witness): the amended theorem applied to the "ghost" column
request on db2. -/
theorem c7_witness :
    (createTask db2 1 inGhost 104).1 = Except.ok (mkNewTask db2 inGhost 104)
    ∧ (createTask db2 1 inGhost 104).2.1.tasks = db2.tasks ++ [mkNewTask db2 inGhost 104]
    ∧ (mkNewTask db2 inGhost 104).columnId = inGhost.columnId :=
  c7_no_columnid_validation db2 1 inGhost 104 board1 1 (by decide) (by decide) rfl

/-- C9 (counterexample): column todo of db2 holds tasks at positions 0
and 1; a createTask request explicitly asking for position 0 (which the
zod schema also uses as its default) is given position 2 = max + 1, not
the supplied 0 — `position || max + 1` treats an explicit 0 as absent. -/
theorem c9_counterexample :
    createdPosition (createTask db2 1 inExplicitZero 103).1 = some 2
    ∧ inExplicitZero.position = 0
    ∧ (∃ t ∈ db2.tasks, t.boardId = 1 ∧ t.columnId = "todo" ∧ t.position = 0) := by decide

/-- C9 (amended): an authorized createTask (without assignee) honours a
supplied position exactly when it is nonzero; when the parsed position is
0 — whether omitted (the zod default) or explicitly 0 — the task gets
(max existing position in the column) + 1, or 0 if the column is empty. -/
theorem c9_alloc_position (db : DB) (userId : Nat) (input : TaskInput) (newId : Nat)
    (board : Board) (wsId : Nat)
    (hb : boardWorkspace db input.boardId = some (board, wsId))
    (he : memberRowsEditor db wsId userId ≠ [])
    (ha : input.assignedTo = none) :
    (input.position ≠ 0 →
      createdPosition (createTask db userId input newId).1 = some input.position)
    ∧ (input.position = 0 →
      (colTasks db input.boardId input.columnId = []
        ∧ createdPosition (createTask db userId input newId).1 = some 0)
      ∨ (∃ m ∈ colTasks db input.boardId input.columnId,
          (∀ u ∈ colTasks db input.boardId input.columnId, u.position ≤ m.position)
          ∧ createdPosition (createTask db userId input newId).1 = some (m.position + 1))) := by
  have hok : (createTask db userId input newId).1 = Except.ok (mkNewTask db input newId) := by
    unfold createTask
    simp only [hb, ha]
    rw [if_neg (length_beq_zero_not_true _ he)]
    rfl
  constructor
  · intro hp
    rw [hok]
    show some (allocPosition db input.boardId input.columnId input.position)
      = some input.position
    unfold allocPosition
    rw [if_pos hp]
  · intro hp
    rcases maxPositionTask_spec db input.boardId input.columnId with
      ⟨hnil, hmax⟩ | ⟨t, hmax, hmem, hbd⟩
    · left
      refine ⟨hnil, ?_⟩
      rw [hok]
      show some (allocPosition db input.boardId input.columnId input.position) = some 0
      unfold allocPosition
      rw [if_neg (by simp [hp]), hmax]
    · right
      refine ⟨t, hmem, hbd, ?_⟩
      rw [hok]
      show some (allocPosition db input.boardId input.columnId input.position)
        = some (t.position + 1)
      unfold allocPosition
      rw [if_neg (by simp [hp]), hmax]

/-- C9 (witness): the amended theorem's nonzero branch applied to a
request for position 7 on db2: the created task gets position 7. -/
theorem c9_witness :
    createdPosition (createTask db2 1 inPos7 105).1 = some 7 :=
  (c9_alloc_position db2 1 inPos7 105 board1 1 (by decide) (by decide) rfl).1 (by decide)

/-- C10 (confirmed): the join-board handler adds the socket to room
board-boardId exactly when the board exists and the socket's user has a
membership row in its workspace; otherwise it emits an error event to the
requesting socket and leaves room membership unchanged; consequently the
invariant that every room occupant is a member of the board's workspace
is preserved. -/
theorem c10_join_board_authz (db : DB) (rooms : List RoomEntry)
    (sock : SocketCtx) (boardId : Nat) :
    (∀ b wsId, boardWorkspace db boardId = some (b, wsId) →
      memberRowsAny db wsId sock.userId ≠ [] →
      handleJoinBoard db rooms sock boardId
        = (⟨boardId, sock.socketId, sock.userId⟩ :: rooms,
            [⟨boardRoom boardId, "user-joined"⟩, ⟨socketRoom sock.socketId, "joined-board"⟩]))
    ∧ (boardWorkspace db boardId = none →
      handleJoinBoard db rooms sock boardId = (rooms, [⟨socketRoom sock.socketId, "error"⟩]))
    ∧ (∀ b wsId, boardWorkspace db boardId = some (b, wsId) →
      memberRowsAny db wsId sock.userId = [] →
      handleJoinBoard db rooms sock boardId = (rooms, [⟨socketRoom sock.socketId, "error"⟩]))
    ∧ (roomsAuthorized db rooms → roomsAuthorized db (handleJoinBoard db rooms sock boardId).1) := by
  refine ⟨?_, ?_, ?_, ?_⟩
  · intro b wsId hbw hm
    unfold handleJoinBoard
    simp only [hbw]
    rw [if_neg (length_beq_zero_not_true _ hm)]
  · intro hbw
    unfold handleJoinBoard
    rw [hbw]
  · intro b wsId hbw hm
    unfold handleJoinBoard
    simp only [hbw, hm]
    rfl
  · intro hauth
    cases hbw : boardWorkspace db boardId with
    | none =>
      unfold handleJoinBoard
      rw [hbw]
      exact hauth
    | some bw =>
      obtain ⟨b, wsId⟩ := bw
      by_cases hm : memberRowsAny db wsId sock.userId = []
      · unfold handleJoinBoard
        simp only [hbw, hm]
        exact hauth
      · unfold handleJoinBoard
        simp only [hbw]
        rw [if_neg (length_beq_zero_not_true _ hm)]
        intro e he
        rcases List.mem_cons.mp he with rfl | hin
        · exact ⟨b, wsId, hbw, hm⟩
        · exact hauth e hin

/-- C10 (witness): the join path applied to db2: VIEWER user 3 on socket
50 joins board 1's room (any membership role suffices for reads). -/
theorem c10_witness :
    handleJoinBoard db2 [] ⟨50, 3⟩ 1
      = ([⟨1, 50, 3⟩],
          [⟨boardRoom 1, "user-joined"⟩, ⟨socketRoom 50, "joined-board"⟩]) :=
  (c10_join_board_authz db2 [] ⟨50, 3⟩ 1).1 board1 1 (by decide) (by decide)

end PMT
